import Mathlib

/-!
Verification of `gpmcc/dists/normal_uc.py` (`NormalUC`): a Normal component
model with a Normal-Gamma prior, uncollapsed (latent mean `mu` and precision
`rho` held as explicit state).

The file is a shallow embedding over the reals.  Random-number generation is
an injected capability (a `Sampler` record with a gamma and a normal draw),
and the closed-form log-densities of scipy are embedded as the standard
closed forms.  The parent class `Normal` (module `gpmcc.dists.normal`) is not
part of the sources; its static helpers `posterior_hypers` and
`sample_parameters` are modelled from the specification's formulas.
-/

open Real

namespace NormalUC

/-- Constant `LOG2PI = log(2*pi)` from the source module. -/
noncomputable def LOG2PI : ℝ := Real.log (2 * Real.pi)

/-- Injected random primitives (spec §6): `sample_gamma(shape, rate)` and
`sample_normal(mean, precision)`.  A concrete run of the program supplies the
actual draws; theorems quantify over the sampler. -/
structure Sampler where
  gamma : ℝ → ℝ → ℝ
  normal : ℝ → ℝ → ℝ

/-- Injected pure log-density `normal_logpdf(x, mean, sd)`
(scipy.stats.norm.logpdf): `-((x-mean)/sd)^2/2 - log sd - log sqrt(2*pi)`. -/
noncomputable def normal_logpdf (x mean sd : ℝ) : ℝ :=
  -(((x - mean) / sd) ^ 2) / 2 - Real.log sd - Real.log (Real.sqrt (2 * Real.pi))

/-- Injected pure log-density `gamma_logpdf(x, shape, scale)`
(scipy.stats.gamma.logpdf):
`(shape-1)*log x - x/scale - log Gamma(shape) - shape*log scale`. -/
noncomputable def gamma_logpdf (x shape scale : ℝ) : ℝ :=
  (shape - 1) * Real.log x - x / scale - Real.log (Real.Gamma shape)
    - shape * Real.log scale

/-- The state of a `NormalUC` instance: sufficient statistics
`(N, sum_x, sum_x_sq)`, latent parameters `(mu, rho)`, and hyperparameters
`(m, r, s, nu)`. -/
structure State where
  N : ℝ
  sum_x : ℝ
  sum_x_sq : ℝ
  mu : ℝ
  rho : ℝ
  m : ℝ
  r : ℝ
  s : ℝ
  nu : ℝ

/-- Posterior hyperparameters, as a record. -/
structure PostHypers where
  rn : ℝ
  nun : ℝ
  mn : ℝ
  sn : ℝ

/-- Modelled from the spec: `Normal.posterior_hypers` lives in the missing
parent module `gpmcc.dists.normal`; the spec (§6) gives the exact formulas
`rn = r + N`, `nun = nu + N`, `mn = (r*m + sum_x)/rn`,
`sn = s + sum_x_sq + r*m*m - rn*mn*mn`. -/
noncomputable def posterior_hypers (N sum_x sum_x_sq m r s nu : ℝ) : PostHypers :=
  let rn := r + N
  let nun := nu + N
  let mn := (r * m + sum_x) / rn
  let sn := s + sum_x_sq + r * m * m - rn * mn * mn
  ⟨rn, nun, mn, sn⟩

/-- Modelled from the spec: `Normal.sample_parameters` lives in the missing
parent module; the spec (§4.2) says to draw `rho ~ Gamma(nun/2, rate=sn/2)`
first and then `mu ~ Normal(mn, precision=rn*rho)` using the fresh `rho`.
Returns `(mu, rho)` in the order the source unpacks them. -/
noncomputable def sample_parameters (samp : Sampler) (mn rn sn nun : ℝ) : ℝ × ℝ :=
  let rho := samp.gamma (nun / 2) (sn / 2)
  let mu := samp.normal mn (rn * rho)
  (mu, rho)

/-- `transition_params`: recompute the posterior hyperparameters from the
current sufficient statistics and hyperparameters, then resample `(mu, rho)`;
only the latent parameters are reassigned. -/
noncomputable def transition_params (samp : Sampler) (st : State) : State :=
  let p := posterior_hypers st.N st.sum_x st.sum_x_sq st.m st.r st.s st.nu
  let mr := sample_parameters samp p.mn p.rn p.sn p.nun
  { st with mu := mr.1, rho := mr.2 }

/-- `calc_predictive_logp(x, mu, rho)`:
`scipy.stats.norm.logpdf(x, loc=mu, scale=1/rho**0.5)`. -/
noncomputable def calc_predictive_logp (x mu rho : ℝ) : ℝ :=
  normal_logpdf x mu (1 / Real.sqrt rho)

/-- `calc_log_likelihood(N, sum_x, sum_x_sq, rho, mu)`. -/
noncomputable def calc_log_likelihood (N sum_x sum_x_sq rho mu : ℝ) : ℝ :=
  -(N / 2) * LOG2PI + (N / 2) * Real.log rho
    - 0.5 * (rho * (N * mu * mu - 2 * mu * sum_x + sum_x_sq))

/-- `calc_log_prior(mu, rho, m, r, s, nu)`: gamma log-density of `rho` plus
normal log-density of `mu`, returned as `log_mu + log_rho`. -/
noncomputable def calc_log_prior (mu rho m r s nu : ℝ) : ℝ :=
  let log_rho := gamma_logpdf rho (nu / 2) (2 / s)
  let log_mu := normal_logpdf mu m (1 / Real.sqrt (r * rho))
  log_mu + log_rho

/-- `predictive_logp(x)` of an instance. -/
noncomputable def predictive_logp (st : State) (x : ℝ) : ℝ :=
  calc_predictive_logp x st.mu st.rho

/-- `singleton_logp(x)` of an instance. -/
noncomputable def singleton_logp (st : State) (x : ℝ) : ℝ :=
  calc_predictive_logp x st.mu st.rho

/-- `marginal_logp()` of an instance: `data_logp + prior_logp`. -/
noncomputable def marginal_logp (st : State) : ℝ :=
  let data_logp := calc_log_likelihood st.N st.sum_x st.sum_x_sq st.rho st.mu
  let prior_logp := calc_log_prior st.mu st.rho st.m st.r st.s st.nu
  data_logp + prior_logp

/-- The constructor `NormalUC.__init__`: the parent stores the sufficient
statistics and hyperparameters; then `self.mu, self.rho = mu, rho`, and if
either is `None`, `transition_params()` is invoked (which overwrites both
latent fields, so the `None` placeholders — rendered here as `0` — are never
observable). -/
noncomputable def init (samp : Sampler) (N sum_x sum_x_sq : ℝ)
    (mu0 rho0 : Option ℝ) (m r s nu : ℝ) : State :=
  match mu0, rho0 with
  | some mu, some rho =>
      ⟨N, sum_x, sum_x_sq, mu, rho, m, r, s, nu⟩
  | _, _ =>
      transition_params samp ⟨N, sum_x, sum_x_sq, 0, 0, m, r, s, nu⟩

/-- A concrete sampler used to instantiate witnesses: the gamma draw is the
constant `1` (positive, as a real Gamma draw is), the normal draw returns its
mean. -/
def constSampler : Sampler := ⟨fun _ _ => 1, fun mean _ => mean⟩

/-- Failures the Python runtime can produce inside `calc_predictive_logp`.
`numericError` is the `NumericError` of the spec's error taxonomy; the source
module never defines or raises it. -/
inductive PyExc where
  | zeroDivisionError : PyExc
  | complexScaleError : PyExc
  | numericError : PyExc
  deriving DecidableEq

/-- Evaluation of `calc_predictive_logp` with the Python semantics of the
scale expression `1./rho**.5` made explicit: at `rho = 0`, `0.0**.5` is `0.0`
and float division by zero raises `ZeroDivisionError`; at `rho < 0`,
`rho**.5` is a complex number, so the call cannot produce a real log-density
(`complexScaleError` stands for that failure); for `rho > 0` it returns the
normal log-density at scale `1/sqrt rho`. -/
noncomputable def calc_predictive_logp_run (x mu rho : ℝ) : Except PyExc ℝ :=
  if rho = 0 then Except.error PyExc.zeroDivisionError
  else if rho < 0 then Except.error PyExc.complexScaleError
  else Except.ok (calc_predictive_logp x mu rho)

/-- `predictive_logp(x)` of an instance, with the failure modes explicit. -/
noncomputable def predictive_logp_run (st : State) (x : ℝ) : Except PyExc ℝ :=
  calc_predictive_logp_run x st.mu st.rho

end NormalUC

open NormalUC

/-- C1: `transition_params` computes the posterior hyperparameters exactly by
the conjugate-update formulas, draws `rho` from
`Gamma(nun/2, rate=sn/2)`, and then draws `mu` from
`Normal(mn, precision=rn*rho)` where `rho` is the freshly drawn value. -/
theorem transition_params_spec (samp : Sampler) (st : State) :
    let rn := st.r + st.N
    let nun := st.nu + st.N
    let mn := (st.r * st.m + st.sum_x) / rn
    let sn := st.s + st.sum_x_sq + st.r * st.m * st.m - rn * mn * mn
    (transition_params samp st).rho = samp.gamma (nun / 2) (sn / 2) ∧
    (transition_params samp st).mu =
      samp.normal mn (rn * samp.gamma (nun / 2) (sn / 2)) := by
  constructor <;> rfl

/-- C2: `marginal_logp` is exactly the sum of the closed-form Gaussian
log-likelihood in sufficient statistics and the Normal-Gamma log-prior
`gamma_logpdf(rho; nu/2, scale 2/s) + normal_logpdf(mu; m, sd 1/sqrt(r*rho))`:
an unnormalized joint log-density of data and parameters. -/
theorem marginal_logp_spec (st : State) :
    marginal_logp st =
      (-(st.N / 2) * Real.log (2 * Real.pi) + (st.N / 2) * Real.log st.rho
          - st.rho / 2 * (st.N * st.mu ^ 2 - 2 * st.mu * st.sum_x + st.sum_x_sq))
        + (gamma_logpdf st.rho (st.nu / 2) (2 / st.s)
          + normal_logpdf st.mu st.m (1 / Real.sqrt (st.r * st.rho))) := by
  simp only [marginal_logp, calc_log_likelihood, calc_log_prior, LOG2PI]
  ring

/-- C3: `predictive_logp(x)` is the normal log-density of `x` at mean `mu`
and standard deviation `1/sqrt(rho)`, and it depends only on `(mu, rho)`:
two states agreeing on the latent parameters give equal values no matter
their sufficient statistics. -/
theorem predictive_logp_spec (x : ℝ) (st₁ st₂ : State)
    (hmu : st₁.mu = st₂.mu) (hrho : st₁.rho = st₂.rho) :
    predictive_logp st₁ x = normal_logpdf x st₁.mu (1 / Real.sqrt st₁.rho) ∧
    predictive_logp st₁ x = predictive_logp st₂ x := by
  constructor
  · rfl
  · simp only [predictive_logp, calc_predictive_logp, hmu, hrho]

/-- Witness for C3: two states with the same `(mu, rho) = (0, 1)` but
different sufficient statistics assign the same predictive log-density. -/
theorem predictive_logp_spec_witness :
    predictive_logp ⟨0, 0, 0, 0, 1, 0, 1, 1, 1⟩ 2 =
      normal_logpdf 2 (0 : ℝ) (1 / Real.sqrt 1) ∧
    predictive_logp ⟨0, 0, 0, 0, 1, 0, 1, 1, 1⟩ 2 =
      predictive_logp ⟨5, 7, 13, 0, 1, 0, 1, 1, 1⟩ 2 :=
  predictive_logp_spec 2 ⟨0, 0, 0, 0, 1, 0, 1, 1, 1⟩ ⟨5, 7, 13, 0, 1, 0, 1, 1, 1⟩
    rfl rfl

/-- C5: `singleton_logp(x)` coincides with `predictive_logp(x)` on every
state — it is evaluated against the current `(mu, rho)` — and it is
insensitive to the count `N` (in particular it behaves identically whether
`N = 0` or `N > 0`). -/
theorem singleton_logp_spec (st : State) (x n : ℝ) :
    singleton_logp st x = predictive_logp st x ∧
    singleton_logp { st with N := n } x = singleton_logp st x := by
  constructor <;> rfl

/-- C9: `transition_params` reassigns only the latent parameters; the
sufficient statistics and the hyperparameters of the state are unchanged. -/
theorem transition_params_frame (samp : Sampler) (st : State) :
    (transition_params samp st).N = st.N ∧
    (transition_params samp st).sum_x = st.sum_x ∧
    (transition_params samp st).sum_x_sq = st.sum_x_sq ∧
    (transition_params samp st).m = st.m ∧
    (transition_params samp st).r = st.r ∧
    (transition_params samp st).s = st.s ∧
    (transition_params samp st).nu = st.nu := by
  refine ⟨rfl, rfl, rfl, rfl, rfl, rfl, rfl⟩

/-- C4, counterexample: with `nu = r = s = 1 > 0` and `N = 1 >= 0` but
sufficient statistics `(N, sum_x, sum_x_sq) = (1, 10, 0)` that no real data
can produce, the posterior hyperparameter `sn` is `-49 < 0`, refuting the
claim as stated. -/
theorem posterior_hypers_sn_cex :
    (0 : ℝ) < 1 ∧ (0 : ℝ) < 1 ∧ (0 : ℝ) < 1 ∧ (0 : ℝ) ≤ 1 ∧
    (posterior_hypers 1 10 0 0 1 1 1).sn < 0 := by
  refine ⟨by norm_num, by norm_num, by norm_num, by norm_num, ?_⟩
  norm_num [posterior_hypers]

/-- C4, amended: whenever `nu, r, s > 0`, `N >= 0`, and the sufficient
statistics are realizable by real data (`0 <= sum_x_sq` and the
Cauchy-Schwarz invariant `sum_x^2 <= N * sum_x_sq`), the posterior
hyperparameters satisfy `nun, rn, sn > 0`, and the `rho` produced by
`transition_params` is strictly positive for any injected gamma sampler that
returns positive draws on positive shape and rate. -/
theorem transition_params_pos (samp : Sampler) (st : State)
    (hnu : 0 < st.nu) (hr : 0 < st.r) (hs : 0 < st.s) (hN : 0 ≤ st.N)
    (hsq : 0 ≤ st.sum_x_sq) (hcs : st.sum_x ^ 2 ≤ st.N * st.sum_x_sq)
    (hg : ∀ a b, 0 < a → 0 < b → 0 < samp.gamma a b) :
    0 < (posterior_hypers st.N st.sum_x st.sum_x_sq st.m st.r st.s st.nu).nun ∧
    0 < (posterior_hypers st.N st.sum_x st.sum_x_sq st.m st.r st.s st.nu).rn ∧
    0 < (posterior_hypers st.N st.sum_x st.sum_x_sq st.m st.r st.s st.nu).sn ∧
    0 < (transition_params samp st).rho := by
  have hrn : 0 < st.r + st.N := by linarith
  have hkey : (st.r * st.m + st.sum_x) ^ 2 <
      (st.s + st.sum_x_sq + st.r * st.m * st.m) * (st.r + st.N) := by
    rcases eq_or_lt_of_le hN with h0 | h0
    · have hsx : st.sum_x = 0 := by
        have h1 : st.sum_x ^ 2 ≤ 0 := by
          calc st.sum_x ^ 2 ≤ st.N * st.sum_x_sq := hcs
          _ = 0 := by rw [← h0]; ring
        have h2 : 0 ≤ st.sum_x ^ 2 := sq_nonneg _
        have : st.sum_x ^ 2 = 0 := le_antisymm h1 h2
        exact pow_eq_zero_iff (by norm_num) |>.mp this
      rw [hsx, ← h0]
      nlinarith [mul_pos hr hs, mul_nonneg hr.le hsq]
    · nlinarith [mul_pos (mul_pos h0 hrn) hs,
        mul_nonneg hrn.le (sub_nonneg.2 hcs),
        mul_nonneg hr.le (sq_nonneg (st.sum_x - st.N * st.m))]
  have hsn : 0 < (posterior_hypers st.N st.sum_x st.sum_x_sq st.m st.r st.s st.nu).sn := by
    show 0 < st.s + st.sum_x_sq + st.r * st.m * st.m -
      (st.r + st.N) * ((st.r * st.m + st.sum_x) / (st.r + st.N)) *
        ((st.r * st.m + st.sum_x) / (st.r + st.N))
    have hrw : (st.r + st.N) * ((st.r * st.m + st.sum_x) / (st.r + st.N)) *
        ((st.r * st.m + st.sum_x) / (st.r + st.N)) =
        (st.r * st.m + st.sum_x) ^ 2 / (st.r + st.N) := by
      field_simp
      ring
    rw [hrw, sub_pos, div_lt_iff₀ hrn]
    exact hkey
  refine ⟨by show 0 < st.nu + st.N; linarith, hrn, hsn, ?_⟩
  show 0 < samp.gamma
    ((posterior_hypers st.N st.sum_x st.sum_x_sq st.m st.r st.s st.nu).nun / 2)
    ((posterior_hypers st.N st.sum_x st.sum_x_sq st.m st.r st.s st.nu).sn / 2)
  exact hg _ _ (by show 0 < (st.nu + st.N) / 2; linarith) (half_pos hsn)

/-- Witness for the amended C4 at the state
`(N, sum_x, sum_x_sq, mu, rho, m, r, s, nu) = (1, 3, 9, 0, 1, 0, 1, 1, 1)`
with the constant sampler. -/
theorem transition_params_pos_witness :
    0 < (posterior_hypers 1 3 9 0 1 1 1).nun ∧
    0 < (posterior_hypers 1 3 9 0 1 1 1).rn ∧
    0 < (posterior_hypers 1 3 9 0 1 1 1).sn ∧
    0 < (transition_params constSampler ⟨1, 3, 9, 0, 1, 0, 1, 1, 1⟩).rho :=
  transition_params_pos constSampler ⟨1, 3, 9, 0, 1, 0, 1, 1, 1⟩
    (by norm_num) (by norm_num) (by norm_num) (by norm_num) (by norm_num)
    (by norm_num) (fun a b _ _ => by norm_num [constSampler])

/-- C6: when `mu` or `rho` is not supplied, the constructor hands the
supplied sufficient statistics and hyperparameters to `transition_params`,
so the instance holds `rho` drawn from `Gamma(nun/2, rate=sn/2)` and `mu`
drawn from `Normal(mn, precision=rn*rho)` at the posterior hyperparameters
of the supplied state, and stores the supplied statistics and
hyperparameters themselves. -/
theorem init_resamples (samp : Sampler) (N sum_x sum_x_sq : ℝ)
    (mu0 rho0 : Option ℝ) (m r s nu : ℝ) (h : mu0 = none ∨ rho0 = none) :
    (init samp N sum_x sum_x_sq mu0 rho0 m r s nu).rho =
      samp.gamma ((posterior_hypers N sum_x sum_x_sq m r s nu).nun / 2)
        ((posterior_hypers N sum_x sum_x_sq m r s nu).sn / 2) ∧
    (init samp N sum_x sum_x_sq mu0 rho0 m r s nu).mu =
      samp.normal (posterior_hypers N sum_x sum_x_sq m r s nu).mn
        ((posterior_hypers N sum_x sum_x_sq m r s nu).rn *
          (init samp N sum_x sum_x_sq mu0 rho0 m r s nu).rho) ∧
    (init samp N sum_x sum_x_sq mu0 rho0 m r s nu).N = N ∧
    (init samp N sum_x sum_x_sq mu0 rho0 m r s nu).sum_x = sum_x ∧
    (init samp N sum_x sum_x_sq mu0 rho0 m r s nu).sum_x_sq = sum_x_sq ∧
    (init samp N sum_x sum_x_sq mu0 rho0 m r s nu).m = m ∧
    (init samp N sum_x sum_x_sq mu0 rho0 m r s nu).r = r ∧
    (init samp N sum_x sum_x_sq mu0 rho0 m r s nu).s = s ∧
    (init samp N sum_x sum_x_sq mu0 rho0 m r s nu).nu = nu := by
  rcases h with h | h
  · subst h
    cases rho0 <;> exact ⟨rfl, rfl, rfl, rfl, rfl, rfl, rfl, rfl, rfl⟩
  · subst h
    cases mu0 <;> exact ⟨rfl, rfl, rfl, rfl, rfl, rfl, rfl, rfl, rfl⟩

/-- Witness for C6: constructing with `mu` missing and `rho = 7` supplied
still resamples both latent parameters from the posterior conditional of the
supplied statistics `(2, 3, 5)` and hyperparameters `(0, 1, 1, 1)`. -/
theorem init_resamples_witness :
    (init constSampler 2 3 5 none (some 7) 0 1 1 1).rho =
      constSampler.gamma ((posterior_hypers 2 3 5 0 1 1 1).nun / 2)
        ((posterior_hypers 2 3 5 0 1 1 1).sn / 2) ∧
    (init constSampler 2 3 5 none (some 7) 0 1 1 1).mu =
      constSampler.normal (posterior_hypers 2 3 5 0 1 1 1).mn
        ((posterior_hypers 2 3 5 0 1 1 1).rn *
          (init constSampler 2 3 5 none (some 7) 0 1 1 1).rho) ∧
    (init constSampler 2 3 5 none (some 7) 0 1 1 1).N = 2 ∧
    (init constSampler 2 3 5 none (some 7) 0 1 1 1).sum_x = 3 ∧
    (init constSampler 2 3 5 none (some 7) 0 1 1 1).sum_x_sq = 5 ∧
    (init constSampler 2 3 5 none (some 7) 0 1 1 1).m = 0 ∧
    (init constSampler 2 3 5 none (some 7) 0 1 1 1).r = 1 ∧
    (init constSampler 2 3 5 none (some 7) 0 1 1 1).s = 1 ∧
    (init constSampler 2 3 5 none (some 7) 0 1 1 1).nu = 1 :=
  init_resamples constSampler 2 3 5 none (some 7) 0 1 1 1 (Or.inl rfl)

/-- C7, counterexample: at a state with `rho = 0`, `predictive_logp` fails
with `ZeroDivisionError` from the scale expression `1./rho**.5`, which is a
different error than the claimed `NumericError`. -/
theorem predictive_logp_numeric_error_cex :
    predictive_logp_run ⟨0, 0, 0, 0, 0, 0, 1, 1, 1⟩ 0 =
      Except.error PyExc.zeroDivisionError ∧
    PyExc.zeroDivisionError ≠ PyExc.numericError := by
  refine ⟨?_, by decide⟩
  simp [predictive_logp_run, calc_predictive_logp_run]

/-- C7, amended: for every `x` and every state with `rho <= 0`, evaluating
`predictive_logp(x)` does not return a real log-density — it fails with
`ZeroDivisionError` when `rho = 0` and with the complex-scale failure when
`rho < 0` — but the failure is never the spec's `NumericError`, which the
code neither defines nor raises. -/
theorem predictive_logp_nonpositive_rho (st : State) (x : ℝ) (h : st.rho ≤ 0) :
    predictive_logp_run st x =
      Except.error (if st.rho = 0 then PyExc.zeroDivisionError
        else PyExc.complexScaleError) ∧
    predictive_logp_run st x ≠ Except.error PyExc.numericError := by
  rcases h.lt_or_eq with h0 | h0
  · have hne : st.rho ≠ 0 := ne_of_lt h0
    constructor
    · simp [predictive_logp_run, calc_predictive_logp_run, hne, h0]
    · simp [predictive_logp_run, calc_predictive_logp_run, hne, h0]
  · constructor
    · simp [predictive_logp_run, calc_predictive_logp_run, h0]
    · simp [predictive_logp_run, calc_predictive_logp_run, h0]

/-- Witness for the amended C7 at a state with `rho = -1`. -/
theorem predictive_logp_nonpositive_rho_witness :
    predictive_logp_run ⟨0, 0, 0, 0, -1, 0, 1, 1, 1⟩ 0 =
      Except.error (if (-1 : ℝ) = 0 then PyExc.zeroDivisionError
        else PyExc.complexScaleError) ∧
    predictive_logp_run ⟨0, 0, 0, 0, -1, 0, 1, 1, 1⟩ 0 ≠
      Except.error PyExc.numericError :=
  predictive_logp_nonpositive_rho ⟨0, 0, 0, 0, -1, 0, 1, 1, 1⟩ 0 (by norm_num)

/-- C8: with `mu = 0` and `rho = 1`, `predictive_logp(0)` is the
standard-normal log-density at `0`, namely `-(1/2) * log(2*pi)`. -/
theorem calc_predictive_logp_std_normal :
    calc_predictive_logp 0 0 1 = -(1 / 2) * Real.log (2 * Real.pi) := by
  unfold calc_predictive_logp normal_logpdf
  rw [Real.sqrt_one, Real.log_sqrt (by positivity)]
  norm_num
  ring

/-- C10: when both `mu` and `rho` are supplied, the constructor stores them
verbatim with no validation and without calling `transition_params` (the
result does not involve the sampler at all); in particular an instance with
`rho = -1 <= 0` is constructed without any error. -/
theorem init_stores_verbatim (samp : Sampler)
    (N sum_x sum_x_sq mu rho m r s nu : ℝ) :
    init samp N sum_x sum_x_sq (some mu) (some rho) m r s nu =
      ⟨N, sum_x, sum_x_sq, mu, rho, m, r, s, nu⟩ ∧
    (init samp 0 0 0 (some 0) (some (-1)) 0 1 1 1).rho < 0 := by
  refine ⟨rfl, ?_⟩
  show (-1 : ℝ) < 0
  norm_num
